import Mathlib

/-!
Shallow embedding of `Source/GitSourceControl/Private/GitSourceControlMenu.cpp`
(UEGitPlugin). External collaborators — the git command runner, the editor
asset host (package lookup, loading, reloading), the filesystem and the user
dialogs — are modelled as explicit inputs. Each click handler and the
completion callback becomes a pure function from the menu object's state and
those inputs to the new state together with the trace of observable actions
(git commands run, packages detached/reloaded/unloaded, notifications shown).
-/

/-- In-memory package handle (`UPackage*`): its long package name, whether it is
currently fully loaded (`IsFullyLoaded`), and whether it contains a map
(decides the file extension used in `ReloadPackages`). -/
structure Package where
  name : String
  fullyLoaded : Bool
  containsMap : Bool
deriving DecidableEq, Repr

/-- Operation names as compared in `OnSourceControlOperationComplete`. -/
inductive OpName where
  | Sync
  | Revert
  | Push
  | UpdateStatus
deriving DecidableEq, Repr

/-- Observable actions performed by the menu code, in program order. -/
inductive Event where
  | saveDirtyPackages (saved : Bool)
  | runGit (cmd : String) (params : List String)
  | promptStash (accepted : Bool)
  | promptRevert (accepted : Bool)
  | flushAsyncLoading
  | fullyLoad (p : Package)
  | resetLoaders (p : Package)
  | execute (op : OpName) (succeeded : Bool)
  | displayInProgress
  | removeInProgress
  | notifySuccess (op : OpName)
  | notifyFailure (op : OpName)
  | reloadPkgs (pkgs : List Package)
  | unloadPkgs (pkgs : List Package)
  | warn (message : String)
  | logError (message : String)
  | logNote (message : String)
deriving DecidableEq, Repr

/-- State of the `FGitSourceControlMenu` object: the validity of the weak
pointer `OperationInProgressNotification`, the `bStashMadeBeforeSync` flag and
the `PackagesToReload` member array. -/
structure MenuState where
  operationInProgressNotification : Bool
  bStashMadeBeforeSync : Bool
  packagesToReload : List Package
deriving DecidableEq, Repr

/-- Modelled from the spec: the initial state of the orchestrator before any
operation — the member declarations live in `GitSourceControlMenu.h`, which is
not part of the reviewed sources; per the spec, `OperationState` starts `Idle`
(no progress notification), the `StashFlag` is only ever true after this
orchestrator created a stash, and the `PendingReloadSet` starts empty. -/
def initState : MenuState :=
  { operationInProgressNotification := false
    bStashMadeBeforeSync := false
    packagesToReload := [] }

/-- Parameters of the `git status` invocations (`ParametersStatus`). -/
def statusParams : List String := ["--porcelain --untracked-files=no"]

/-- Parameters of the stash creation command (`ParametersStash` in
`StashAwayAnyModifications`). -/
def stashSaveParams : List String := ["save \"Stashed by Unreal Engine Git Plugin\""]

/-- Parameters of the stash pop command (`ParametersStash` in
`ReApplyStashedModifications`). -/
def stashPopParams : List String := ["pop"]

/-- Parameters of the `git diff` invocation in `SyncClicked`: `--stat`,
`--name-only` and the range `..origin/<branch>` built from `DiffOrigin`. -/
def diffParams (branchName : String) : List String :=
  ["--stat", "--name-only", "..origin/" ++ branchName]

/-- Warning text shown when a second request arrives while an operation is in
progress (`SourceControlMenu_InProgress`). -/
def inProgressWarning : String := "Source control operation already in progress"

/-- `FPackageName::GetMapPackageExtension()`. -/
def mapPackageExtension : String := ".umap"

/-- `FPackageName::GetAssetPackageExtension()`. -/
def assetPackageExtension : String := ".uasset"

/-- `FGitSourceControlMenu::ListAllPackages`: convert each found package file
path with `TryConvertFilenameToLongPackageName`; keep successes, log an error
with the failure reason for each failed conversion and drop that path.
`tryConvert` models the engine conversion (`.error` carries `FailureReason`).
Returns the package names together with the logging events, both in traversal
order. -/
def listAllPackages (tryConvert : String → Except String String) :
    List String → List String × List Event
  | [] => ([], [])
  | path :: rest =>
    let r := listAllPackages tryConvert rest
    match tryConvert path with
    | Except.ok packageName => (packageName :: r.1, r.2)
    | Except.error failureReason => (r.1, Event.logError failureReason :: r.2)

/-- Status lines kept by the uncommitted-changes filter in `SyncClicked`:
lines starting with `" M"` or `" A"`, with the first three characters
(`RightChop(3)`) removed. -/
def statusFilterModifyAdd (statusLines : List String) : List String :=
  (statusLines.filter (fun l => l.startsWith " M" || l.startsWith " A")).map
    (fun l => l.drop 3)

/-- `ChangedFiles` as accumulated in `SyncClicked`: the `git diff` output lines
followed by the filtered `git status` lines. -/
def changedFiles (diffLines statusLines : List String) : List String :=
  diffLines ++ statusFilterModifyAdd statusLines

/-- The `PackagesToUnlink` loop of `SyncClicked`: each changed file is made
absolute (`ConvertRelativePathToFull`), then converted with
`TryConvertFilenameToLongPackageName`; successes are logged (`UE_LOG`) and
collected, failures are skipped — the loop has no else branch, so a failed
conversion produces no event at all. -/
def packagesToUnlinkEv (toAbsolute : String → String)
    (tryConvert : String → Except String String) :
    List String → List String × List Event
  | [] => ([], [])
  | filename :: rest =>
    let r := packagesToUnlinkEv toAbsolute tryConvert rest
    match tryConvert (toAbsolute filename) with
    | Except.ok packageName =>
        (packageName :: r.1,
          Event.logNote (toAbsolute filename ++ " - " ++ packageName) :: r.2)
    | Except.error _ => r

/-- Detachment of one resident package in `UnlinkPackages`: if it is not fully
loaded, first `FlushAsyncLoading()` and `Package->FullyLoad()`, then
`ResetLoaders(Package)`. -/
def detachOne (p : Package) : List Event :=
  if p.fullyLoaded then [Event.resetLoaders p]
  else [Event.flushAsyncLoading, Event.fullyLoad p, Event.resetLoaders p]

/-- Loop body of `FGitSourceControlMenu::UnlinkPackages`: look every name up
with `FindPackage`; non-resident names are skipped, resident packages are
collected in discovery order and detached. -/
def unlinkAux (findPackage : String → Option Package) :
    List String → List Package × List Event
  | [] => ([], [])
  | n :: rest =>
    let r := unlinkAux findPackage rest
    match findPackage n with
    | some p => (p :: r.1, detachOne p ++ r.2)
    | none => r

/-- `FGitSourceControlMenu::UnlinkPackages`: run the loop, then (when the input
list was non-empty) log the count of detached packages. -/
def unlinkPackages (findPackage : String → Option Package)
    (inPackageNames : List String) : List Package × List Event :=
  if inPackageNames.isEmpty then unlinkAux findPackage inPackageNames
  else ((unlinkAux findPackage inPackageNames).1,
    (unlinkAux findPackage inPackageNames).2 ++
      [Event.logNote "Reseted Loader for Packages"])

/-- Filename of a package as computed in `ReloadPackages`:
`LongPackageNameToFilename` of its name with the map or asset extension. -/
def packageFilename (longPackageNameToFilename : String → String → String)
    (p : Package) : String :=
  longPackageNameToFilename p.name
    (if p.containsMap then mapPackageExtension else assetPackageExtension)

/-- `FGitSourceControlMenu::ReloadPackages`: `RemoveAll` moves every package
whose backing file no longer exists out of the caller's array (in place) into
`PackagesToUnload`; the survivors are hot-reloaded and the removed ones
unloaded. The first component is the caller's array after the in-place
filtering. -/
def reloadPackages (longPackageNameToFilename : String → String → String)
    (fileExists : String → Bool) (inPackagesToReload : List Package) :
    List Package × List Event :=
  (inPackagesToReload.filter
      (fun p => fileExists (packageFilename longPackageNameToFilename p)),
   [Event.logNote "Reloading Packages",
    Event.reloadPkgs (inPackagesToReload.filter
      (fun p => fileExists (packageFilename longPackageNameToFilename p))),
    Event.unloadPkgs (inPackagesToReload.filter
      (fun p => !fileExists (packageFilename longPackageNameToFilename p)))])

/-- Inputs of `StashAwayAnyModifications`: the result and output of its
`git status` call, the user's dialog choice, and the result of `git stash`. -/
structure StashEnv where
  statusOk : Bool
  statusLines : List String
  userAccepts : Bool
  stashCmdOk : Bool

/-- `FGitSourceControlMenu::StashAwayAnyModifications`: returns
(`bStashOk`, new `bStashMadeBeforeSync`, events). `bStashOk` is false only
when the user declines the stash dialog; a failed stash command is reported
with a warning but keeps `bStashOk` true. When the working tree is clean (or
`git status` fails) the flag member is left untouched. -/
def stashAwayAnyModifications (bStashMadeBeforeSync : Bool) (env : StashEnv) :
    Bool × Bool × List Event :=
  if env.statusOk && !env.statusLines.isEmpty then
    if env.userAccepts then
      (true, env.stashCmdOk,
        [Event.runGit "status" statusParams, Event.promptStash true,
         Event.runGit "stash" stashSaveParams] ++
          (if env.stashCmdOk then []
           else [Event.warn "Stashing away modifications failed!"]))
    else
      (false, bStashMadeBeforeSync,
        [Event.runGit "status" statusParams, Event.promptStash false])
  else
    (true, bStashMadeBeforeSync, [Event.runGit "status" statusParams])

/-- `FGitSourceControlMenu::ReApplyStashedModifications`: if
`bStashMadeBeforeSync` is set, run `git stash pop` and warn on failure. The
member flag is not written anywhere in the function, so the returned flag is
the unchanged input. -/
def reApplyStashedModifications (bStashMadeBeforeSync : Bool)
    (unstashOk : Bool) : Bool × List Event :=
  if bStashMadeBeforeSync then
    (bStashMadeBeforeSync,
      [Event.runGit "stash" stashPopParams] ++
        (if unstashOk then []
         else [Event.warn "Unstashing previously saved modifications failed!"]))
  else
    (bStashMadeBeforeSync, [])

/-- Inputs of one `SyncClicked` run: result of `SaveDirtyPackages`, the branch
name, the outputs of the `git diff` and `git status` calls, the path/asset-host
collaborators, the stash dialog inputs, and whether `Provider.Execute`
returned `Succeeded`. -/
structure SyncEnv where
  saveOk : Bool
  branchName : String
  diffLines : List String
  statusLines : List String
  toAbsolute : String → String
  tryConvert : String → Except String String
  findPackage : String → Option Package
  stash : StashEnv
  executeOk : Bool
  longPackageNameToFilename : String → String → String
  fileExists : String → Bool

/-- `FGitSourceControlMenu::SyncClicked`: reject when a notification is in
flight; otherwise save dirty packages, run `git diff` and `git status`,
resolve and convert the changed files, unlink the resident matches into
`PackagesToReload`, then ask to stash; on decline warn and stop, otherwise
dispatch the asynchronous Sync and either show the progress notification or —
if the dispatch failed — show the failure notification and reload the already
detached packages. -/
def syncClicked (st : MenuState) (env : SyncEnv) : MenuState × List Event :=
  if st.operationInProgressNotification then
    (st, [Event.warn inProgressWarning])
  else if env.saveOk then
    let files := changedFiles env.diffLines env.statusLines
    let conv := packagesToUnlinkEv env.toAbsolute env.tryConvert files
    let unl := unlinkPackages env.findPackage conv.1
    let st1 : MenuState := { st with packagesToReload := unl.1 }
    let stashR := stashAwayAnyModifications st1.bStashMadeBeforeSync env.stash
    let st2 : MenuState := { st1 with bStashMadeBeforeSync := stashR.2.1 }
    let pre : List Event :=
      Event.saveDirtyPackages true ::
        Event.runGit "diff" (diffParams env.branchName) ::
          Event.runGit "status" statusParams :: (conv.2 ++ unl.2 ++ stashR.2.2)
    if stashR.1 then
      if env.executeOk then
        ({ st2 with operationInProgressNotification := true },
          pre ++ [Event.execute OpName.Sync true, Event.displayInProgress])
      else
        let rel := reloadPackages env.longPackageNameToFilename env.fileExists
          st2.packagesToReload
        ({ st2 with packagesToReload := rel.1 },
          pre ++ [Event.execute OpName.Sync false,
            Event.notifyFailure OpName.Sync] ++ rel.2)
    else
      (st2, pre ++ [Event.warn "Stash away all modifications before attempting to Sync!"])
  else
    (st, [Event.saveDirtyPackages false,
      Event.warn "Save All Assets before attempting to Sync!"])

/-- Inputs of one `RevertClicked` run: the confirmation dialog choice, the
package files found under the content directory, the conversion and asset-host
collaborators, and the dispatch result. -/
structure RevertEnv where
  userConfirms : Bool
  packageRelativePaths : List String
  tryConvert : String → Except String String
  findPackage : String → Option Package
  executeOk : Bool
  longPackageNameToFilename : String → String → String
  fileExists : String → Bool

/-- `FGitSourceControlMenu::RevertClicked`: reject when busy; otherwise ask
for confirmation, and if confirmed unlink every package under the content
directory into `PackagesToReload` and dispatch the asynchronous Revert,
reloading the detached packages immediately when the dispatch fails. -/
def revertClicked (st : MenuState) (env : RevertEnv) : MenuState × List Event :=
  if st.operationInProgressNotification then
    (st, [Event.warn inProgressWarning])
  else if env.userConfirms then
    let allPkgs := listAllPackages env.tryConvert env.packageRelativePaths
    let unl := unlinkPackages env.findPackage allPkgs.1
    let st1 : MenuState := { st with packagesToReload := unl.1 }
    let pre : List Event := Event.promptRevert true :: (allPkgs.2 ++ unl.2)
    if env.executeOk then
      ({ st1 with operationInProgressNotification := true },
        pre ++ [Event.execute OpName.Revert true, Event.displayInProgress])
    else
      let rel := reloadPackages env.longPackageNameToFilename env.fileExists
        st1.packagesToReload
      ({ st1 with packagesToReload := rel.1 },
        pre ++ [Event.execute OpName.Revert false,
          Event.notifyFailure OpName.Revert] ++ rel.2)
  else
    (st, [Event.promptRevert false])

/-- `FGitSourceControlMenu::PushClicked`: reject when busy, otherwise dispatch
the asynchronous Push and show the progress or failure notification. -/
def pushClicked (st : MenuState) (executeOk : Bool) : MenuState × List Event :=
  if st.operationInProgressNotification then
    (st, [Event.warn inProgressWarning])
  else if executeOk then
    ({ st with operationInProgressNotification := true },
      [Event.execute OpName.Push true, Event.displayInProgress])
  else
    (st, [Event.execute OpName.Push false, Event.notifyFailure OpName.Push])

/-- `FGitSourceControlMenu::RefreshClicked`: reject when busy, otherwise
dispatch the asynchronous UpdateStatus and show the progress or failure
notification. -/
def refreshClicked (st : MenuState) (executeOk : Bool) : MenuState × List Event :=
  if st.operationInProgressNotification then
    (st, [Event.warn inProgressWarning])
  else if executeOk then
    ({ st with operationInProgressNotification := true },
      [Event.execute OpName.UpdateStatus true, Event.displayInProgress])
  else
    (st, [Event.execute OpName.UpdateStatus false,
      Event.notifyFailure OpName.UpdateStatus])

/-- Inputs of the completion callback: the result of `git stash pop` (when one
is attempted) and the asset-host collaborators used by `ReloadPackages`. -/
structure CompleteEnv where
  unstashOk : Bool
  longPackageNameToFilename : String → String → String
  fileExists : String → Bool

/-- `FGitSourceControlMenu::RemoveInProgressNotification`: expire and reset
the notification when it is valid. -/
def removeInProgressNotification (st : MenuState) : MenuState × List Event :=
  if st.operationInProgressNotification then
    ({ st with operationInProgressNotification := false },
      [Event.removeInProgress])
  else (st, [])

/-- `FGitSourceControlMenu::OnSourceControlOperationComplete`: remove the
progress notification; for Sync and Revert pop the stash (when the flag is
set) and reload the `PackagesToReload`; finally show the success or failure
notification for the operation. -/
def onSourceControlOperationComplete (st : MenuState) (op : OpName)
    (resultOk : Bool) (env : CompleteEnv) : MenuState × List Event :=
  let rem := removeInProgressNotification st
  let finalNote : Event :=
    if resultOk then Event.notifySuccess op else Event.notifyFailure op
  if op = OpName.Sync || op = OpName.Revert then
    let stashR := reApplyStashedModifications rem.1.bStashMadeBeforeSync
      env.unstashOk
    let rel := reloadPackages env.longPackageNameToFilename env.fileExists
      rem.1.packagesToReload
    ({ rem.1 with bStashMadeBeforeSync := stashR.1, packagesToReload := rel.1 },
      rem.2 ++ stashR.2 ++ rel.2 ++ [finalNote])
  else
    (rem.1, rem.2 ++ [finalNote])

/-! ### Event classifiers and ordering machinery -/

/-- Event is the save-dirty-assets step. -/
def isSaveEvt : Event → Bool
  | Event.saveDirtyPackages _ => true
  | _ => false

/-- Event is a loader detachment (`ResetLoaders`). -/
def isDetachEvt : Event → Bool
  | Event.resetLoaders _ => true
  | _ => false

/-- Event is the stash-creation command. -/
def isStashSaveEvt : Event → Bool
  | Event.runGit c ps => c == "stash" && ps == stashSaveParams
  | _ => false

/-- Event is the stash-pop command. -/
def isStashPopEvt : Event → Bool
  | Event.runGit c ps => c == "stash" && ps == stashPopParams
  | _ => false

/-- Event is the dispatch of the asynchronous mutating command. -/
def isExecuteEvt : Event → Bool
  | Event.execute _ _ => true
  | _ => false

/-- Event is the hot-reload of the pending packages. -/
def isReloadEvt : Event → Bool
  | Event.reloadPkgs _ => true
  | _ => false

/-- Event is the final success/failure result notification. -/
def isResultNotifyEvt : Event → Bool
  | Event.notifySuccess _ => true
  | Event.notifyFailure _ => true
  | _ => false

/-- Events produced inside `UnlinkPackages`. -/
def isUnlinkSegEvt : Event → Bool
  | Event.flushAsyncLoading => true
  | Event.fullyLoad _ => true
  | Event.resetLoaders _ => true
  | Event.logNote _ => true
  | _ => false

/-- Events produced inside `StashAwayAnyModifications` and
`ReApplyStashedModifications`. -/
def isStashSegEvt : Event → Bool
  | Event.runGit _ _ => true
  | Event.promptStash _ => true
  | Event.warn _ => true
  | _ => false

/-- Every event satisfying `p` occurs strictly before every event satisfying
`q` in the trace: whenever the scan reaches an event satisfying `q`, neither
that event nor any later one satisfies `p`. -/
def allBefore (p q : Event → Bool) : List Event → Bool
  | [] => true
  | e :: rest =>
    (if q e then !p e && !rest.any p else true) && allBefore p q rest

theorem allBefore_of_no_p {p q : Event → Bool} :
    ∀ {l : List Event}, (∀ e ∈ l, p e = false) → allBefore p q l = true
  | [], _ => rfl
  | e :: rest, h => by
    have he : p e = false := h e (List.mem_cons_self _ _)
    have hr : ∀ e' ∈ rest, p e' = false :=
      fun e' h' => h e' (List.mem_cons_of_mem _ h')
    have hany : rest.any p = false := by
      rw [List.any_eq_false]
      intro x hx
      simp [hr x hx]
    simp [allBefore, allBefore_of_no_p hr, he, hany]

theorem allBefore_of_no_q {p q : Event → Bool} :
    ∀ {l : List Event}, (∀ e ∈ l, q e = false) → allBefore p q l = true
  | [], _ => rfl
  | e :: rest, h => by
    have he : q e = false := h e (List.mem_cons_self _ _)
    have hr : ∀ e' ∈ rest, q e' = false :=
      fun e' h' => h e' (List.mem_cons_of_mem _ h')
    simp [allBefore, allBefore_of_no_q hr, he]

theorem allBefore_append_split {p q : Event → Bool} :
    ∀ (l1 l2 : List Event), (∀ e ∈ l1, q e = false) → (∀ e ∈ l2, p e = false) →
      allBefore p q (l1 ++ l2) = true
  | [], l2, _, h2 => allBefore_of_no_p h2
  | e :: rest, l2, h1, h2 => by
    have he : q e = false := h1 e (List.mem_cons_self _ _)
    have hr : ∀ e' ∈ rest, q e' = false :=
      fun e' h' => h1 e' (List.mem_cons_of_mem _ h')
    simp [allBefore, he, allBefore_append_split rest l2 hr h2]

/-! ### Loadedness tracking for the detachment safety claim -/

/-- Effect of an engine event on the fully-loaded state of packages:
`FullyLoad` makes its package fully loaded, nothing else changes loadedness. -/
def applyEvent (st : Package → Bool) : Event → Package → Bool
  | Event.fullyLoad p => fun q => if q = p then true else st q
  | _ => st

/-- Fold `applyEvent` over a trace. -/
def applyEvents (st : Package → Bool) (evs : List Event) : Package → Bool :=
  evs.foldl applyEvent st

/-- A trace is a safe detachment sequence from loadedness state `st` when every
`ResetLoaders` happens on a package that is fully loaded at that point of the
trace. -/
def safeDetach (st : Package → Bool) : List Event → Bool
  | [] => true
  | Event.resetLoaders p :: rest => st p && safeDetach st rest
  | e :: rest => safeDetach (applyEvent st e) rest

theorem applyEvent_preserves {st : Package → Bool} (e : Event) (q : Package)
    (h : st q = true) : applyEvent st e q = true := by
  cases e <;> simp [applyEvent, h]

theorem applyEvents_preserves :
    ∀ (l : List Event) (st : Package → Bool) (q : Package),
      st q = true → applyEvents st l q = true := by
  intro l
  induction l with
  | nil => intro st q h; exact h
  | cons e rest ih =>
    intro st q h
    exact ih (applyEvent st e) q (applyEvent_preserves e q h)

theorem applyEvent_mono {st st' : Package → Bool}
    (hm : ∀ r, st r = true → st' r = true) (e : Event) :
    ∀ r, applyEvent st e r = true → applyEvent st' e r = true := by
  intro r
  cases e <;> simp [applyEvent] <;> try exact hm r
  exact fun h => h.imp id (hm r)

theorem safeDetach_mono {st st' : Package → Bool} :
    ∀ {l : List Event}, (∀ r, st r = true → st' r = true) →
      safeDetach st l = true → safeDetach st' l = true := by
  intro l
  induction l generalizing st st' with
  | nil => intro _ _; rfl
  | cons e rest ih =>
    intro hm h
    cases e with
    | resetLoaders p =>
      simp only [safeDetach, Bool.and_eq_true] at h ⊢
      exact ⟨hm p h.1, ih hm h.2⟩
    | fullyLoad p =>
      simp only [safeDetach] at h ⊢
      exact ih (applyEvent_mono hm (Event.fullyLoad p)) h
    | saveDirtyPackages b => exact ih hm h
    | runGit c ps => exact ih hm h
    | promptStash b => exact ih hm h
    | promptRevert b => exact ih hm h
    | flushAsyncLoading => exact ih hm h
    | execute o b => exact ih hm h
    | displayInProgress => exact ih hm h
    | removeInProgress => exact ih hm h
    | notifySuccess o => exact ih hm h
    | notifyFailure o => exact ih hm h
    | reloadPkgs l => exact ih hm h
    | unloadPkgs l => exact ih hm h
    | warn s => exact ih hm h
    | logError s => exact ih hm h
    | logNote s => exact ih hm h

theorem safeDetach_append {st : Package → Bool} :
    ∀ {l1 l2 : List Event}, safeDetach st l1 = true →
      safeDetach (applyEvents st l1) l2 = true → safeDetach st (l1 ++ l2) = true := by
  intro l1
  induction l1 generalizing st with
  | nil => intro l2 _ h2; exact h2
  | cons e rest ih =>
    intro l2 h1 h2
    cases e with
    | resetLoaders p =>
      simp only [safeDetach, Bool.and_eq_true] at h1 ⊢
      refine ⟨h1.1, ?_⟩
      exact ih h1.2 h2
    | fullyLoad p =>
      simp only [safeDetach] at h1 ⊢
      exact ih h1 h2
    | saveDirtyPackages b => exact ih h1 h2
    | runGit c ps => exact ih h1 h2
    | promptStash b => exact ih h1 h2
    | promptRevert b => exact ih h1 h2
    | flushAsyncLoading => exact ih h1 h2
    | execute o b => exact ih h1 h2
    | displayInProgress => exact ih h1 h2
    | removeInProgress => exact ih h1 h2
    | notifySuccess o => exact ih h1 h2
    | notifyFailure o => exact ih h1 h2
    | reloadPkgs l => exact ih h1 h2
    | unloadPkgs l => exact ih h1 h2
    | warn s => exact ih h1 h2
    | logError s => exact ih h1 h2
    | logNote s => exact ih h1 h2

/-! ### Segment shape lemmas: which events each source function can emit -/

theorem conv_events_logNote (toAbsolute : String → String)
    (tryConvert : String → Except String String) :
    ∀ (fs : List String), ∀ e ∈ (packagesToUnlinkEv toAbsolute tryConvert fs).2,
      ∃ s, e = Event.logNote s := by
  intro fs
  induction fs with
  | nil => intro e h; simp [packagesToUnlinkEv] at h
  | cons f rest ih =>
    intro e h
    simp only [packagesToUnlinkEv] at h
    cases hc : tryConvert (toAbsolute f) with
    | ok nm =>
      rw [hc] at h
      simp only [List.mem_cons] at h
      rcases h with rfl | h
      · exact ⟨_, rfl⟩
      · exact ih e h
    | error r =>
      rw [hc] at h
      exact ih e h

theorem detachOne_events (p : Package) : ∀ e ∈ detachOne p, isUnlinkSegEvt e = true := by
  intro e h
  unfold detachOne at h
  split at h <;> simp only [List.mem_cons, List.not_mem_nil, or_false] at h
  · subst h; rfl
  · rcases h with rfl | rfl | rfl <;> rfl

theorem unlinkAux_events (f : String → Option Package) :
    ∀ (ns : List String), ∀ e ∈ (unlinkAux f ns).2, isUnlinkSegEvt e = true := by
  intro ns
  induction ns with
  | nil => intro e h; simp [unlinkAux] at h
  | cons n rest ih =>
    intro e h
    simp only [unlinkAux] at h
    cases hf : f n with
    | some p =>
      rw [hf] at h
      simp only [List.mem_append] at h
      rcases h with h | h
      · exact detachOne_events p e h
      · exact ih e h
    | none =>
      rw [hf] at h
      exact ih e h

theorem unlinkPackages_events (f : String → Option Package) (ns : List String) :
    ∀ e ∈ (unlinkPackages f ns).2, isUnlinkSegEvt e = true := by
  intro e h
  unfold unlinkPackages at h
  split at h
  · exact unlinkAux_events f ns e h
  · simp only [List.mem_append, List.mem_cons, List.not_mem_nil, or_false] at h
    rcases h with h | rfl
    · exact unlinkAux_events f ns e h
    · rfl

theorem stash_events_shape (b : Bool) (env : StashEnv) :
    ∀ e ∈ (stashAwayAnyModifications b env).2.2, isStashSegEvt e = true := by
  cases hs : (env.statusOk && !env.statusLines.isEmpty) <;>
    cases hu : env.userAccepts <;>
      cases hk : env.stashCmdOk <;>
        simp [stashAwayAnyModifications, hs, hu, hk] <;>
          decide

theorem reapply_events_shape (b ok : Bool) :
    ∀ e ∈ (reApplyStashedModifications b ok).2, isStashSegEvt e = true := by
  cases b <;> cases ok <;> simp [reApplyStashedModifications] <;> decide

theorem unlinkSeg_class {e : Event} (h : isUnlinkSegEvt e = true) :
    isSaveEvt e = false ∧ isStashSaveEvt e = false ∧ isStashPopEvt e = false ∧
      isExecuteEvt e = false ∧ isReloadEvt e = false ∧ isResultNotifyEvt e = false := by
  cases e <;> simp_all [isUnlinkSegEvt, isSaveEvt, isStashSaveEvt, isStashPopEvt,
    isExecuteEvt, isReloadEvt, isResultNotifyEvt]

theorem stashSeg_class {e : Event} (h : isStashSegEvt e = true) :
    isSaveEvt e = false ∧ isDetachEvt e = false ∧ isExecuteEvt e = false ∧
      isReloadEvt e = false ∧ isResultNotifyEvt e = false := by
  cases e <;> simp_all [isStashSegEvt, isSaveEvt, isDetachEvt, isExecuteEvt,
    isReloadEvt, isResultNotifyEvt]

/-! ### Concrete collaborators used by scenarios and witnesses -/

/-- Conversion that succeeds on every path (identity). -/
def convOk : String → Except String String := fun s => Except.ok s

/-- Conversion that fails on every path. -/
def convFail : String → Except String String := fun _ => Except.error "cannot convert"

/-- Asset host in which every queried name is resident and fully loaded. -/
def findAll : String → Option Package :=
  fun n => some { name := n, fullyLoaded := true, containsMap := false }

/-- Simple filename scheme: name concatenated with the extension. -/
def fnameOf : String → String → String := fun n ext => n ++ ext

/-- Filesystem in which every file exists. -/
def allFilesExist : String → Bool := fun _ => true

/-- Loaded package `a.uasset` of the spec's Scenario C. -/
def pkgA : Package := { name := "/Game/a", fullyLoaded := true, containsMap := false }

/-- Loaded package `b.uasset` of the spec's Scenario C. -/
def pkgB : Package := { name := "/Game/b", fullyLoaded := true, containsMap := false }

/-- Filesystem of Scenario C: only `a.uasset`'s file survives the operation. -/
def existsOnlyA : String → Bool := fun s => s == "/Game/a.uasset"

/-- State with an operation in progress (valid progress notification). -/
def busyState : MenuState :=
  { operationInProgressNotification := true
    bStashMadeBeforeSync := false
    packagesToReload := [] }

/-- Sync inputs: one file modified on the remote, a dirty working tree, the
user accepts the stash prompt, and every command succeeds. -/
def syncEnvStash : SyncEnv :=
  { saveOk := true
    branchName := "main"
    diffLines := ["Content/A.uasset"]
    statusLines := []
    toAbsolute := id
    tryConvert := convOk
    findPackage := findAll
    stash := { statusOk := true, statusLines := [" M Content/B.uasset"],
               userAccepts := true, stashCmdOk := true }
    executeOk := true
    longPackageNameToFilename := fnameOf
    fileExists := allFilesExist }

/-- Same sync inputs but the user declines the stash prompt. -/
def syncEnvDecline : SyncEnv :=
  { syncEnvStash with
    stash := { statusOk := true, statusLines := [" M Content/B.uasset"],
               userAccepts := false, stashCmdOk := true } }

/-- Same sync inputs but `Provider.Execute` fails to start the operation. -/
def syncEnvDispatchFail : SyncEnv := { syncEnvStash with executeOk := false }

/-- Revert inputs: the user confirms and the dispatch succeeds. -/
def revertEnvOk : RevertEnv :=
  { userConfirms := true
    packageRelativePaths := []
    tryConvert := convOk
    findPackage := findAll
    executeOk := true
    longPackageNameToFilename := fnameOf
    fileExists := allFilesExist }

/-- Revert inputs whose dispatch fails to start. -/
def revertEnvDispatchFail : RevertEnv := { revertEnvOk with executeOk := false }

/-- Completion inputs: the stash pop succeeds and every file exists. -/
def cenvOk : CompleteEnv :=
  { unstashOk := true
    longPackageNameToFilename := fnameOf
    fileExists := allFilesExist }

/-! ### Claim theorems -/

/-- C4: while the progress-notification handle is valid, every Push, Sync,
Revert or Refresh request is rejected synchronously with the
"operation already in progress" warning: the handler returns with the menu
state unchanged, emits only that warning (so no command is dispatched and
nothing is queued), leaving pending reload set, stash flag and notification
handle untouched. -/
theorem busy_request_rejected (st : MenuState) (senv : SyncEnv)
    (renv : RevertEnv) (pushOk refreshOk : Bool)
    (h : st.operationInProgressNotification = true) :
    syncClicked st senv = (st, [Event.warn inProgressWarning]) ∧
    pushClicked st pushOk = (st, [Event.warn inProgressWarning]) ∧
    revertClicked st renv = (st, [Event.warn inProgressWarning]) ∧
    refreshClicked st refreshOk = (st, [Event.warn inProgressWarning]) := by
  unfold syncClicked pushClicked revertClicked refreshClicked
  simp [h]

/-- Witness for C4: the rejection at a concrete busy state. -/
theorem busy_request_rejected_witness :
    syncClicked busyState syncEnvStash = (busyState, [Event.warn inProgressWarning]) ∧
    pushClicked busyState true = (busyState, [Event.warn inProgressWarning]) ∧
    revertClicked busyState revertEnvOk = (busyState, [Event.warn inProgressWarning]) ∧
    refreshClicked busyState true = (busyState, [Event.warn inProgressWarning]) :=
  busy_request_rejected busyState syncEnvStash revertEnvOk true true rfl

/-- C6: `ReloadPackages` partitions the pending handles by current file
existence — a handle is in the reloaded batch exactly when its backing file
exists and in the unloaded batch exactly when it does not (so absent-backed
handles are never re-read), every pending handle lands in one of the two
batches, and both the reload and the unload are performed before the function
returns. -/
theorem reload_partitions_by_existence (fn : String → String → String)
    (fileExists : String → Bool) (pending : List Package) :
    ∃ reloaded unloaded : List Package,
      (reloadPackages fn fileExists pending).2 =
        [Event.logNote "Reloading Packages", Event.reloadPkgs reloaded,
         Event.unloadPkgs unloaded] ∧
      (∀ p, p ∈ reloaded ↔ p ∈ pending ∧ fileExists (packageFilename fn p) = true) ∧
      (∀ p, p ∈ unloaded ↔ p ∈ pending ∧ fileExists (packageFilename fn p) = false) ∧
      (∀ p ∈ pending, p ∈ reloaded ∨ p ∈ unloaded) := by
  refine ⟨_, _, rfl, ?_, ?_, ?_⟩
  · intro p
    simp [List.mem_filter]
  · intro p
    simp [List.mem_filter]
  · intro p hp
    by_cases h : fileExists (packageFilename fn p) = true
    · exact Or.inl (List.mem_filter.2 ⟨hp, by simp [h]⟩)
    · exact Or.inr (List.mem_filter.2 ⟨hp, by simp [Bool.not_eq_true] at h; simp [h]⟩)

/-- Witness for C6: Scenario C — `a.uasset` still exists and is reloaded,
`b.uasset` was deleted and is unloaded. -/
theorem reload_partitions_by_existence_witness :
    ∃ reloaded unloaded : List Package,
      (reloadPackages fnameOf existsOnlyA [pkgA, pkgB]).2 =
        [Event.logNote "Reloading Packages", Event.reloadPkgs reloaded,
         Event.unloadPkgs unloaded] ∧
      (∀ p, p ∈ reloaded ↔ p ∈ [pkgA, pkgB] ∧ existsOnlyA (packageFilename fnameOf p) = true) ∧
      (∀ p, p ∈ unloaded ↔ p ∈ [pkgA, pkgB] ∧ existsOnlyA (packageFilename fnameOf p) = false) ∧
      (∀ p ∈ [pkgA, pkgB], p ∈ reloaded ∨ p ∈ unloaded) :=
  reload_partitions_by_existence fnameOf existsOnlyA [pkgA, pkgB]

/-- C10: `ReloadPackages` filters the caller's array in place — on return the
caller's collection holds exactly the handles whose backing file existed (the
ones passed to the hot reload), while the handles whose file was absent are no
longer in it and are passed to the unload instead. -/
theorem reload_filters_caller_list_in_place (fn : String → String → String)
    (fileExists : String → Bool) (pending : List Package) :
    (reloadPackages fn fileExists pending).1 =
      pending.filter (fun p => fileExists (packageFilename fn p)) ∧
    Event.reloadPkgs ((reloadPackages fn fileExists pending).1) ∈
      (reloadPackages fn fileExists pending).2 ∧
    Event.unloadPkgs (pending.filter (fun p => !fileExists (packageFilename fn p))) ∈
      (reloadPackages fn fileExists pending).2 ∧
    (∀ p ∈ pending, fileExists (packageFilename fn p) = false →
      p ∉ (reloadPackages fn fileExists pending).1) := by
  refine ⟨rfl, by simp [reloadPackages], by simp [reloadPackages], ?_⟩
  intro p _ h hmem
  have := (List.mem_filter.1 hmem).2
  simp [h] at this

/-- Witness for C10: in Scenario C the caller's list holds only `a.uasset`
afterwards; `b.uasset` has been removed from it and unloaded. -/
theorem reload_filters_caller_list_in_place_witness :
    (reloadPackages fnameOf existsOnlyA [pkgA, pkgB]).1 =
      [pkgA, pkgB].filter (fun p => existsOnlyA (packageFilename fnameOf p)) ∧
    Event.reloadPkgs ((reloadPackages fnameOf existsOnlyA [pkgA, pkgB]).1) ∈
      (reloadPackages fnameOf existsOnlyA [pkgA, pkgB]).2 ∧
    Event.unloadPkgs ([pkgA, pkgB].filter
        (fun p => !existsOnlyA (packageFilename fnameOf p))) ∈
      (reloadPackages fnameOf existsOnlyA [pkgA, pkgB]).2 ∧
    (∀ p ∈ [pkgA, pkgB], existsOnlyA (packageFilename fnameOf p) = false →
      p ∉ (reloadPackages fnameOf existsOnlyA [pkgA, pkgB]).1) :=
  reload_filters_caller_list_in_place fnameOf existsOnlyA [pkgA, pkgB]

/-! ### C7: detachment safety lemmas -/

theorem unlinkAux_fst (f : String → Option Package) :
    ∀ (ns : List String), (unlinkAux f ns).1 = ns.filterMap f := by
  intro ns
  induction ns with
  | nil => rfl
  | cons n rest ih =>
    simp only [unlinkAux, List.filterMap_cons]
    cases hf : f n with
    | some p => simp [ih]
    | none => simp [ih]

theorem detachOne_safe (p : Package) :
    safeDetach Package.fullyLoaded (detachOne p) = true := by
  cases hp : p.fullyLoaded <;>
    simp [detachOne, hp, safeDetach, applyEvent]

theorem unlinkAux_safe (f : String → Option Package) :
    ∀ (ns : List String),
      safeDetach Package.fullyLoaded (unlinkAux f ns).2 = true := by
  intro ns
  induction ns with
  | nil => rfl
  | cons n rest ih =>
    simp only [unlinkAux]
    cases hf : f n with
    | some p =>
      simp only
      refine safeDetach_append (detachOne_safe p) ?_
      refine safeDetach_mono ?_ ih
      intro r hr
      exact applyEvents_preserves (detachOne p) _ r hr
    | none => exact ih

theorem safeDetach_singleton_logNote (st : Package → Bool) (s : String) :
    safeDetach st [Event.logNote s] = true := rfl

theorem unlinkAux_cons (f : String → Option Package) (n : String)
    (rest : List String) :
    unlinkAux f (n :: rest) =
      match f n with
      | some p => (p :: (unlinkAux f rest).1, detachOne p ++ (unlinkAux f rest).2)
      | none => unlinkAux f rest := rfl

theorem unlinkAux_flush_mem (f : String → Option Package) :
    ∀ (ns : List String), ∀ p ∈ (unlinkAux f ns).1, p.fullyLoaded = false →
      Event.flushAsyncLoading ∈ (unlinkAux f ns).2 ∧
        Event.fullyLoad p ∈ (unlinkAux f ns).2 := by
  intro ns
  induction ns with
  | nil => intro p hp; simp [unlinkAux] at hp
  | cons n rest ih =>
    intro p hp hload
    rw [unlinkAux_cons] at hp ⊢
    revert hp
    cases hf : f n with
    | some q =>
      intro hp
      simp only [List.mem_cons] at hp
      simp only [List.mem_append]
      rcases hp with rfl | hp
      · exact ⟨Or.inl (by simp [detachOne, hload]),
          Or.inl (by simp [detachOne, hload])⟩
      · exact ⟨Or.inr (ih p hp hload).1, Or.inr (ih p hp hload).2⟩
    | none =>
      intro hp
      exact ih p hp hload

/-- C7: `UnlinkPackages` skips non-resident names without any error (the
result is exactly the resident lookups, and the trace holds no warning or
error events), and every `ResetLoaders` in its trace happens on a package
that is fully loaded at that point of the trace — a package found only
partially loaded has had `FlushAsyncLoading` and a `FullyLoad` performed on
it before its detach. -/
theorem unlink_detaches_only_fully_loaded (findPackage : String → Option Package)
    (names : List String) :
    (unlinkPackages findPackage names).1 = names.filterMap findPackage ∧
    safeDetach Package.fullyLoaded (unlinkPackages findPackage names).2 = true ∧
    (∀ s, Event.warn s ∉ (unlinkPackages findPackage names).2) ∧
    (∀ s, Event.logError s ∉ (unlinkPackages findPackage names).2) ∧
    (∀ p ∈ (unlinkPackages findPackage names).1, p.fullyLoaded = false →
      Event.flushAsyncLoading ∈ (unlinkPackages findPackage names).2 ∧
        Event.fullyLoad p ∈ (unlinkPackages findPackage names).2) := by
  refine ⟨?_, ?_, ?_, ?_, ?_⟩
  · unfold unlinkPackages
    split <;> exact unlinkAux_fst findPackage names
  · unfold unlinkPackages
    split
    · exact unlinkAux_safe findPackage names
    · exact safeDetach_append (unlinkAux_safe findPackage names)
        (safeDetach_singleton_logNote _ _)
  · intro s hmem
    have := unlinkPackages_events findPackage names _ hmem
    simp [isUnlinkSegEvt] at this
  · intro s hmem
    have := unlinkPackages_events findPackage names _ hmem
    simp [isUnlinkSegEvt] at this
  · intro p hp hload
    unfold unlinkPackages at hp ⊢
    split at hp
    · next hemp =>
      simp only [if_pos hemp]
      exact unlinkAux_flush_mem findPackage names p hp hload
    · next hemp =>
      simp only [if_neg hemp, List.mem_append]
      exact ⟨Or.inl (unlinkAux_flush_mem findPackage names p hp hload).1,
        Or.inl (unlinkAux_flush_mem findPackage names p hp hload).2⟩

/-- Partially loaded resident package used by the C7 witness. -/
def pkgPartial : Package :=
  { name := "/Game/P", fullyLoaded := false, containsMap := false }

/-- Asset host where only `/Game/P` is resident, and only partially loaded. -/
def findPartial : String → Option Package :=
  fun n => if n = "/Game/P" then some pkgPartial else none

/-- Witness for C7: one partially-loaded resident package and one
non-resident name. -/
theorem unlink_detaches_only_fully_loaded_witness :
    (unlinkPackages findPartial ["/Game/P", "/Game/X"]).1 =
      ["/Game/P", "/Game/X"].filterMap findPartial ∧
    safeDetach Package.fullyLoaded
      (unlinkPackages findPartial ["/Game/P", "/Game/X"]).2 = true ∧
    (∀ s, Event.warn s ∉ (unlinkPackages findPartial ["/Game/P", "/Game/X"]).2) ∧
    (∀ s, Event.logError s ∉ (unlinkPackages findPartial ["/Game/P", "/Game/X"]).2) ∧
    (∀ p ∈ (unlinkPackages findPartial ["/Game/P", "/Game/X"]).1,
      p.fullyLoaded = false →
      Event.flushAsyncLoading ∈ (unlinkPackages findPartial ["/Game/P", "/Game/X"]).2 ∧
        Event.fullyLoad p ∈ (unlinkPackages findPartial ["/Game/P", "/Game/X"]).2) :=
  unlink_detaches_only_fully_loaded findPartial ["/Game/P", "/Game/X"]

/-! ### C8: conversion failure reporting -/

theorem listAllPackages_cons (conv : String → Except String String)
    (path : String) (rest : List String) :
    listAllPackages conv (path :: rest) =
      match conv path with
      | Except.ok packageName =>
          (packageName :: (listAllPackages conv rest).1,
            (listAllPackages conv rest).2)
      | Except.error failureReason =>
          ((listAllPackages conv rest).1,
            Event.logError failureReason :: (listAllPackages conv rest).2) := rfl

theorem listAllPackages_fst (conv : String → Except String String) :
    ∀ (paths : List String),
      (listAllPackages conv paths).1 =
        paths.filterMap (fun p => (conv p).toOption) := by
  intro paths
  induction paths with
  | nil => rfl
  | cons path rest ih =>
    rw [listAllPackages_cons, List.filterMap_cons]
    cases hc : conv path <;> simp [Except.toOption, ih]

theorem listAllPackages_logs (conv : String → Except String String) :
    ∀ (paths : List String), ∀ p ∈ paths, ∀ r, conv p = Except.error r →
      Event.logError r ∈ (listAllPackages conv paths).2 := by
  intro paths
  induction paths with
  | nil => intro p hp; simp at hp
  | cons path rest ih =>
    intro p hp r hr
    rw [listAllPackages_cons]
    rcases List.mem_cons.1 hp with rfl | hp
    · rw [hr]
      simp
    · cases hc : conv path with
      | ok nm => simpa using ih p hp r hr
      | error fr => simp [ih p hp r hr]

theorem packagesToUnlinkEv_cons (toAbsolute : String → String)
    (conv : String → Except String String) (f : String) (rest : List String) :
    packagesToUnlinkEv toAbsolute conv (f :: rest) =
      match conv (toAbsolute f) with
      | Except.ok nm =>
          (nm :: (packagesToUnlinkEv toAbsolute conv rest).1,
            Event.logNote (toAbsolute f ++ " - " ++ nm) ::
              (packagesToUnlinkEv toAbsolute conv rest).2)
      | Except.error _ => packagesToUnlinkEv toAbsolute conv rest := rfl

theorem packagesToUnlinkEv_fst (toAbsolute : String → String)
    (conv : String → Except String String) :
    ∀ (fs : List String),
      (packagesToUnlinkEv toAbsolute conv fs).1 =
        fs.filterMap (fun f => (conv (toAbsolute f)).toOption) := by
  intro fs
  induction fs with
  | nil => rfl
  | cons f rest ih =>
    rw [packagesToUnlinkEv_cons, List.filterMap_cons]
    cases hc : conv (toAbsolute f) <;> simp [Except.toOption, ih]

theorem packagesToUnlinkEv_no_logError (toAbsolute : String → String)
    (conv : String → Except String String) (fs : List String) :
    ∀ r, Event.logError r ∉ (packagesToUnlinkEv toAbsolute conv fs).2 := by
  intro r hmem
  obtain ⟨s, hs⟩ := conv_events_logNote toAbsolute conv fs _ hmem
  cases hs

/-- C8 counterexample: a failing conversion in the differential (sync)
path-resolution loop produces no event whatsoever — in particular no log —
refuting the claim that conversion failures are reported in both loops. -/
theorem sync_conversion_failure_silently_dropped :
    convFail "Content/Bad.bin" = Except.error "cannot convert" ∧
    (packagesToUnlinkEv id convFail ["Content/Bad.bin"]).1 = [] ∧
    (packagesToUnlinkEv id convFail ["Content/Bad.bin"]).2 = [] :=
  ⟨rfl, rfl, rfl⟩

/-- C8 (amended): in both loops a failing path is excluded from the batch
without aborting the remaining conversions, and in the full-scan enumeration
(`ListAllPackages`) each failure is additionally logged with its reason; the
differential (sync) resolution loop, however, drops failures silently — its
trace never contains an error-log event. -/
theorem conversion_failures_reported_only_in_full_scan
    (toAbsolute : String → String) (conv : String → Except String String)
    (paths files : List String) :
    ((listAllPackages conv paths).1 =
        paths.filterMap (fun p => (conv p).toOption) ∧
      ∀ p ∈ paths, ∀ r, conv p = Except.error r →
        Event.logError r ∈ (listAllPackages conv paths).2) ∧
    ((packagesToUnlinkEv toAbsolute conv files).1 =
        files.filterMap (fun f => (conv (toAbsolute f)).toOption) ∧
      ∀ r, Event.logError r ∉ (packagesToUnlinkEv toAbsolute conv files).2) :=
  ⟨⟨listAllPackages_fst conv paths, listAllPackages_logs conv paths⟩,
   ⟨packagesToUnlinkEv_fst toAbsolute conv files,
    packagesToUnlinkEv_no_logError toAbsolute conv files⟩⟩

/-- Witness for C8 (amended): the same failing conversion is logged by the
full-scan enumeration and unlogged in the differential loop. -/
theorem conversion_failures_reported_only_in_full_scan_witness :
    Event.logError "cannot convert" ∈ (listAllPackages convFail ["Content/Bad.bin"]).2 ∧
    Event.logError "cannot convert" ∉ (packagesToUnlinkEv id convFail ["Content/Other.bin"]).2 :=
  ⟨(conversion_failures_reported_only_in_full_scan id convFail
      ["Content/Bad.bin"] ["Content/Other.bin"]).1.2 "Content/Bad.bin"
      (List.mem_cons_self _ _) "cannot convert" rfl,
   (conversion_failures_reported_only_in_full_scan id convFail
      ["Content/Bad.bin"] ["Content/Other.bin"]).2.2 "cannot convert"⟩

/-- C5: in differential mode the resolved changed set is the union of the
committed-diff paths (`git diff --stat --name-only ..origin/<branch>`) and the
working-tree status paths kept by the modify/add filter (untracked files are
already excluded by the `--untracked-files=no` status invocation, and
deletion markers fail the filter); and resolution maps each such path to an
absolute path before converting it to a package name. -/
theorem sync_differential_changed_set (st : MenuState) (env : SyncEnv)
    (hbusy : st.operationInProgressNotification = false)
    (hsave : env.saveOk = true) :
    Event.runGit "diff" (diffParams env.branchName) ∈ (syncClicked st env).2 ∧
    Event.runGit "status" statusParams ∈ (syncClicked st env).2 ∧
    (∀ f, f ∈ changedFiles env.diffLines env.statusLines ↔
      (f ∈ env.diffLines ∨ ∃ l ∈ env.statusLines,
        (l.startsWith " M" || l.startsWith " A") = true ∧ f = l.drop 3)) ∧
    (packagesToUnlinkEv env.toAbsolute env.tryConvert
        (changedFiles env.diffLines env.statusLines)).1 =
      (changedFiles env.diffLines env.statusLines).filterMap
        (fun f => (env.tryConvert (env.toAbsolute f)).toOption) := by
  refine ⟨?_, ?_, ?_, ?_⟩
  · simp only [syncClicked, hbusy, hsave]
    simp only [Bool.false_eq_true, if_false, if_true]
    split <;> [split <;> simp; simp]
  · simp only [syncClicked, hbusy, hsave]
    simp only [Bool.false_eq_true, if_false, if_true]
    split <;> [split <;> simp; simp]
  · intro f
    simp only [changedFiles, statusFilterModifyAdd, List.mem_append,
      List.mem_map, List.mem_filter]
    constructor
    · rintro (h | ⟨l, ⟨hl, hf⟩, rfl⟩)
      · exact Or.inl h
      · exact Or.inr ⟨l, hl, hf, rfl⟩
    · rintro (h | ⟨l, hl, hf, rfl⟩)
      · exact Or.inl h
      · exact Or.inr ⟨l, ⟨hl, hf⟩, rfl⟩
  · exact packagesToUnlinkEv_fst env.toAbsolute env.tryConvert _

/-- Witness for C5 at the concrete happy-path sync inputs. -/
theorem sync_differential_changed_set_witness :
    Event.runGit "diff" (diffParams syncEnvStash.branchName) ∈
      (syncClicked initState syncEnvStash).2 ∧
    Event.runGit "status" statusParams ∈ (syncClicked initState syncEnvStash).2 ∧
    (∀ f, f ∈ changedFiles syncEnvStash.diffLines syncEnvStash.statusLines ↔
      (f ∈ syncEnvStash.diffLines ∨ ∃ l ∈ syncEnvStash.statusLines,
        (l.startsWith " M" || l.startsWith " A") = true ∧ f = l.drop 3)) ∧
    (packagesToUnlinkEv syncEnvStash.toAbsolute syncEnvStash.tryConvert
        (changedFiles syncEnvStash.diffLines syncEnvStash.statusLines)).1 =
      (changedFiles syncEnvStash.diffLines syncEnvStash.statusLines).filterMap
        (fun f => (syncEnvStash.tryConvert (syncEnvStash.toAbsolute f)).toOption) :=
  sync_differential_changed_set initState syncEnvStash rfl rfl

/-- C1 counterexample: a sync in which packages were detached and the user
then declined the stash prompt aborts with only a warning — the trace has
detach events but no reload, and the detached handles stay in
`PackagesToReload` unreconciled, refuting "no abort path leaves detached
resources unreconciled". -/
theorem stash_decline_leaves_detached_unreconciled :
    (syncClicked initState syncEnvDecline).2.any isDetachEvt = true ∧
    (syncClicked initState syncEnvDecline).2.any isReloadEvt = false ∧
    (syncClicked initState syncEnvDecline).1.packagesToReload ≠ [] := by
  decide

/-- C1 (amended): reconciliation of the detached set runs in the click handler
whenever the asynchronous Sync or Revert command fails to start, and runs in
the completion callback whenever a Sync or Revert completes, with success or
failure; the one abort path without reconciliation is a sync whose stash
prompt is declined after the detach already happened. -/
theorem reconcile_on_dispatch_failure_and_completion :
    (∀ (st : MenuState) (env : SyncEnv),
      st.operationInProgressNotification = false → env.saveOk = true →
      (stashAwayAnyModifications st.bStashMadeBeforeSync env.stash).1 = true →
      env.executeOk = false →
      (syncClicked st env).2.any isReloadEvt = true) ∧
    (∀ (st : MenuState) (env : RevertEnv),
      st.operationInProgressNotification = false → env.userConfirms = true →
      env.executeOk = false →
      (revertClicked st env).2.any isReloadEvt = true) ∧
    (∀ (st : MenuState) (op : OpName) (resultOk : Bool) (cenv : CompleteEnv),
      op = OpName.Sync ∨ op = OpName.Revert →
      (onSourceControlOperationComplete st op resultOk cenv).2.any isReloadEvt = true) := by
  refine ⟨?_, ?_, ?_⟩
  · intro st env hbusy hsave hstash hexec
    simp [syncClicked, hbusy, hsave, hstash, hexec, reloadPackages, isReloadEvt]
  · intro st env hbusy hconf hexec
    simp [revertClicked, hbusy, hconf, hexec, reloadPackages, isReloadEvt]
  · intro st op resultOk cenv hop
    rcases hop with rfl | rfl <;>
      simp [onSourceControlOperationComplete, removeInProgressNotification,
        reloadPackages, isReloadEvt]

/-- Witness for C1 (amended): dispatch failures of sync and revert reload
immediately, and a completion callback reloads. -/
theorem reconcile_on_dispatch_failure_and_completion_witness :
    (syncClicked initState syncEnvDispatchFail).2.any isReloadEvt = true ∧
    (revertClicked initState revertEnvDispatchFail).2.any isReloadEvt = true ∧
    (onSourceControlOperationComplete busyState OpName.Sync false cenvOk).2.any
      isReloadEvt = true :=
  ⟨reconcile_on_dispatch_failure_and_completion.1 initState syncEnvDispatchFail
      rfl rfl rfl rfl,
   reconcile_on_dispatch_failure_and_completion.2.1 initState revertEnvDispatchFail
      rfl rfl rfl,
   reconcile_on_dispatch_failure_and_completion.2.2 busyState OpName.Sync false
      cenvOk (Or.inl rfl)⟩

/-- C2: `bStashMadeBeforeSync` is never cleared. After a sync that stashed
completes, the flag is still true once the completion callback has finished;
a later revert issues no stash command of its own, yet its completion
callback pops a stash again. -/
theorem stash_flag_never_cleared_pops_foreign_stash :
    (onSourceControlOperationComplete (syncClicked initState syncEnvStash).1
        OpName.Sync true cenvOk).1.bStashMadeBeforeSync = true ∧
    (revertClicked (onSourceControlOperationComplete
        (syncClicked initState syncEnvStash).1 OpName.Sync true cenvOk).1
        revertEnvOk).2.any isStashSaveEvt = false ∧
    (onSourceControlOperationComplete
        (revertClicked (onSourceControlOperationComplete
            (syncClicked initState syncEnvStash).1 OpName.Sync true cenvOk).1
          revertEnvOk).1
        OpName.Revert true cenvOk).2.any isStashPopEvt = true := by
  decide

/-- C9 counterexample: after a sync completed and its pending set was
reconciled, `PackagesToReload` still holds the reloaded handles — it is not
cleared. -/
theorem pending_reload_set_not_cleared :
    (onSourceControlOperationComplete (syncClicked initState syncEnvStash).1
        OpName.Sync true cenvOk).1.packagesToReload ≠ [] := by
  decide

/-- C9 (amended): the pending reload set is assigned at detachment when a sync
handler runs to dispatch, and the completion callback of a Sync or Revert
reconciles it exactly once (the reload of its still-existing handles is in
the completion trace) — but instead of being cleared it retains the reloaded
handles afterwards; a sync aborted at the stash prompt leaves it unreconciled
until a later operation overwrites it. -/
theorem pending_reload_lifecycle (st : MenuState) (env : SyncEnv)
    (cst : MenuState) (op : OpName) (resultOk : Bool) (cenv : CompleteEnv)
    (hbusy : st.operationInProgressNotification = false)
    (hsave : env.saveOk = true) (hexec : env.executeOk = true)
    (hop : op = OpName.Sync ∨ op = OpName.Revert) :
    (syncClicked st env).1.packagesToReload =
      (unlinkPackages env.findPackage
        (packagesToUnlinkEv env.toAbsolute env.tryConvert
          (changedFiles env.diffLines env.statusLines)).1).1 ∧
    Event.reloadPkgs (cst.packagesToReload.filter (fun p =>
        cenv.fileExists (packageFilename cenv.longPackageNameToFilename p))) ∈
      (onSourceControlOperationComplete cst op resultOk cenv).2 ∧
    (onSourceControlOperationComplete cst op resultOk cenv).1.packagesToReload =
      cst.packagesToReload.filter (fun p =>
        cenv.fileExists (packageFilename cenv.longPackageNameToFilename p)) := by
  refine ⟨?_, ?_, ?_⟩
  · simp only [syncClicked, hbusy, hsave, hexec]
    simp only [Bool.false_eq_true, if_false, if_true]
    split <;> rfl
  · rcases hop with rfl | rfl <;>
      by_cases hnotif : cst.operationInProgressNotification <;>
        simp [onSourceControlOperationComplete, removeInProgressNotification,
          reloadPackages, hnotif]
  · rcases hop with rfl | rfl <;>
      by_cases hnotif : cst.operationInProgressNotification <;>
        simp [onSourceControlOperationComplete, removeInProgressNotification,
          reloadPackages, hnotif]

/-- Witness for C9 (amended) at the concrete happy-path sync and a concrete
completion with one surviving and one deleted backing file. -/
theorem pending_reload_lifecycle_witness :
    (syncClicked initState syncEnvStash).1.packagesToReload =
      (unlinkPackages syncEnvStash.findPackage
        (packagesToUnlinkEv syncEnvStash.toAbsolute syncEnvStash.tryConvert
          (changedFiles syncEnvStash.diffLines syncEnvStash.statusLines)).1).1 ∧
    Event.reloadPkgs (([pkgA, pkgB] : List Package).filter (fun p =>
        existsOnlyA (packageFilename fnameOf p))) ∈
      (onSourceControlOperationComplete
        { operationInProgressNotification := true, bStashMadeBeforeSync := true,
          packagesToReload := [pkgA, pkgB] } OpName.Sync true
        { unstashOk := true, longPackageNameToFilename := fnameOf,
          fileExists := existsOnlyA }).2 ∧
    (onSourceControlOperationComplete
        { operationInProgressNotification := true, bStashMadeBeforeSync := true,
          packagesToReload := [pkgA, pkgB] } OpName.Sync true
        { unstashOk := true, longPackageNameToFilename := fnameOf,
          fileExists := existsOnlyA }).1.packagesToReload =
      ([pkgA, pkgB] : List Package).filter (fun p =>
        existsOnlyA (packageFilename fnameOf p)) :=
  pending_reload_lifecycle initState syncEnvStash
    { operationInProgressNotification := true, bStashMadeBeforeSync := true,
      packagesToReload := [pkgA, pkgB] } OpName.Sync true
    { unstashOk := true, longPackageNameToFilename := fnameOf,
      fileExists := existsOnlyA } rfl rfl rfl (Or.inl rfl)

/-! ### C3: ordering of the protocol steps inside one operation -/

theorem allBefore_cons (p q : Event → Bool) (e : Event) (l : List Event) :
    allBefore p q (e :: l) =
      ((if q e then !p e && !l.any p else true) && allBefore p q l) := rfl

theorem allBefore_cons_skip {p q : Event → Bool} {e : Event} {l : List Event}
    (hq : q e = false) (h : allBefore p q l = true) :
    allBefore p q (e :: l) = true := by
  rw [allBefore_cons, hq]
  simp [h]

theorem reload_events_class (fn : String → String → String)
    (fe : String → Bool) (l : List Package) :
    ∀ e ∈ (reloadPackages fn fe l).2,
      isSaveEvt e = false ∧ isDetachEvt e = false ∧ isStashSaveEvt e = false ∧
        isStashPopEvt e = false ∧ isResultNotifyEvt e = false := by
  intro e he
  simp only [reloadPackages, List.mem_cons, List.not_mem_nil, or_false] at he
  rcases he with rfl | rfl | rfl <;> exact ⟨rfl, rfl, rfl, rfl, rfl⟩

theorem removeNotif_events (st : MenuState) :
    ∀ e ∈ (removeInProgressNotification st).2, e = Event.removeInProgress := by
  by_cases h : st.operationInProgressNotification <;>
    simp [removeInProgressNotification, h]

theorem sync_order_helper (dp : List String)
    (convE unlE stashE tail : List Event)
    (hconv : ∀ e ∈ convE, ∃ s, e = Event.logNote s)
    (hunl : ∀ e ∈ unlE, isUnlinkSegEvt e = true)
    (hstash : ∀ e ∈ stashE, isStashSegEvt e = true)
    (htail : ∀ e ∈ tail, isSaveEvt e = false ∧ isDetachEvt e = false ∧
      isStashSaveEvt e = false) :
    allBefore isSaveEvt isDetachEvt
      (Event.saveDirtyPackages true :: Event.runGit "diff" dp ::
        Event.runGit "status" statusParams ::
          (convE ++ (unlE ++ (stashE ++ tail)))) = true ∧
    allBefore isSaveEvt isStashSaveEvt
      (Event.saveDirtyPackages true :: Event.runGit "diff" dp ::
        Event.runGit "status" statusParams ::
          (convE ++ (unlE ++ (stashE ++ tail)))) = true ∧
    allBefore isSaveEvt isExecuteEvt
      (Event.saveDirtyPackages true :: Event.runGit "diff" dp ::
        Event.runGit "status" statusParams ::
          (convE ++ (unlE ++ (stashE ++ tail)))) = true ∧
    allBefore isDetachEvt isStashSaveEvt
      (Event.saveDirtyPackages true :: Event.runGit "diff" dp ::
        Event.runGit "status" statusParams ::
          (convE ++ (unlE ++ (stashE ++ tail)))) = true ∧
    allBefore isDetachEvt isExecuteEvt
      (Event.saveDirtyPackages true :: Event.runGit "diff" dp ::
        Event.runGit "status" statusParams ::
          (convE ++ (unlE ++ (stashE ++ tail)))) = true ∧
    allBefore isStashSaveEvt isExecuteEvt
      (Event.saveDirtyPackages true :: Event.runGit "diff" dp ::
        Event.runGit "status" statusParams ::
          (convE ++ (unlE ++ (stashE ++ tail)))) = true := by
  have hds : isStashSaveEvt (Event.runGit "diff" dp) = false := by
    have h : ("diff" == "stash") = false := by decide
    simp [isStashSaveEvt, h]
  have hss : isStashSaveEvt (Event.runGit "status" statusParams) = false := by
    have h : ("status" == "stash") = false := by decide
    simp [isStashSaveEvt, h]
  have hconv_cls : ∀ e ∈ convE, isSaveEvt e = false ∧ isDetachEvt e = false ∧
      isStashSaveEvt e = false ∧ isExecuteEvt e = false := by
    intro e he
    obtain ⟨s, rfl⟩ := hconv e he
    exact ⟨rfl, rfl, rfl, rfl⟩
  have hunl_cls : ∀ e ∈ unlE, isSaveEvt e = false ∧ isStashSaveEvt e = false ∧
      isExecuteEvt e = false := by
    intro e he
    have h := unlinkSeg_class (hunl e he)
    exact ⟨h.1, h.2.1, h.2.2.2.1⟩
  have hstash_cls : ∀ e ∈ stashE, isSaveEvt e = false ∧ isDetachEvt e = false ∧
      isExecuteEvt e = false := by
    intro e he
    have h := stashSeg_class (hstash e he)
    exact ⟨h.1, h.2.1, h.2.2.1⟩
  have hnosave_app : ∀ e ∈ (convE ++ (unlE ++ (stashE ++ tail))),
      isSaveEvt e = false := by
    intro e he
    simp only [List.mem_append] at he
    rcases he with he | he | he | he
    · exact (hconv_cls e he).1
    · exact (hunl_cls e he).1
    · exact (hstash_cls e he).1
    · exact (htail e he).1
  refine ⟨?_, ?_, ?_, ?_, ?_, ?_⟩
  · exact allBefore_cons_skip rfl (allBefore_cons_skip rfl
      (allBefore_cons_skip rfl (allBefore_of_no_p hnosave_app)))
  · exact allBefore_cons_skip rfl (allBefore_cons_skip hds
      (allBefore_cons_skip hss (allBefore_of_no_p hnosave_app)))
  · exact allBefore_cons_skip rfl (allBefore_cons_skip rfl
      (allBefore_cons_skip rfl (allBefore_of_no_p hnosave_app)))
  · have hA : ∀ e ∈ (Event.saveDirtyPackages true :: Event.runGit "diff" dp ::
        Event.runGit "status" statusParams :: (convE ++ unlE)),
        isStashSaveEvt e = false := by
      intro e he
      simp only [List.mem_cons, List.mem_append] at he
      rcases he with rfl | rfl | rfl | he | he
      · rfl
      · exact hds
      · exact hss
      · exact (hconv_cls e he).2.2.1
      · exact (hunl_cls e he).2.1
    have hB : ∀ e ∈ (stashE ++ tail), isDetachEvt e = false := by
      intro e he
      simp only [List.mem_append] at he
      rcases he with he | he
      · exact (hstash_cls e he).2.1
      · exact (htail e he).2.1
    have h := allBefore_append_split
      (Event.saveDirtyPackages true :: Event.runGit "diff" dp ::
        Event.runGit "status" statusParams :: (convE ++ unlE))
      (stashE ++ tail) hA hB
    simpa [List.append_assoc] using h
  · have hA : ∀ e ∈ (Event.saveDirtyPackages true :: Event.runGit "diff" dp ::
        Event.runGit "status" statusParams :: (convE ++ unlE)),
        isExecuteEvt e = false := by
      intro e he
      simp only [List.mem_cons, List.mem_append] at he
      rcases he with rfl | rfl | rfl | he | he
      · rfl
      · rfl
      · rfl
      · exact (hconv_cls e he).2.2.2
      · exact (hunl_cls e he).2.2
    have hB : ∀ e ∈ (stashE ++ tail), isDetachEvt e = false := by
      intro e he
      simp only [List.mem_append] at he
      rcases he with he | he
      · exact (hstash_cls e he).2.1
      · exact (htail e he).2.1
    have h := allBefore_append_split
      (Event.saveDirtyPackages true :: Event.runGit "diff" dp ::
        Event.runGit "status" statusParams :: (convE ++ unlE))
      (stashE ++ tail) hA hB
    simpa [List.append_assoc] using h
  · have hA : ∀ e ∈ (Event.saveDirtyPackages true :: Event.runGit "diff" dp ::
        Event.runGit "status" statusParams :: (convE ++ (unlE ++ stashE))),
        isExecuteEvt e = false := by
      intro e he
      simp only [List.mem_cons, List.mem_append] at he
      rcases he with rfl | rfl | rfl | he | he | he
      · rfl
      · rfl
      · rfl
      · exact (hconv_cls e he).2.2.2
      · exact (hunl_cls e he).2.2
      · exact (hstash_cls e he).2.2
    have hB : ∀ e ∈ tail, isStashSaveEvt e = false := fun e he => (htail e he).2.2
    have h := allBefore_append_split
      (Event.saveDirtyPackages true :: Event.runGit "diff" dp ::
        Event.runGit "status" statusParams :: (convE ++ (unlE ++ stashE)))
      (tail) hA hB
    simpa [List.append_assoc] using h

theorem complete_order_helper (remE stashE relE : List Event) (fin : Event)
    (hrem : ∀ e ∈ remE, e = Event.removeInProgress)
    (hstash : ∀ e ∈ stashE, isStashSegEvt e = true)
    (hrel : ∀ e ∈ relE, isStashPopEvt e = false ∧ isResultNotifyEvt e = false ∧
      isStashSaveEvt e = false)
    (hfin : isStashPopEvt fin = false ∧ isReloadEvt fin = false) :
    allBefore isStashPopEvt isReloadEvt (remE ++ (stashE ++ (relE ++ [fin]))) = true ∧
    allBefore isStashPopEvt isResultNotifyEvt (remE ++ (stashE ++ (relE ++ [fin]))) = true ∧
    allBefore isReloadEvt isResultNotifyEvt (remE ++ (stashE ++ (relE ++ [fin]))) = true := by
  have hrem_cls : ∀ e ∈ remE, isStashPopEvt e = false ∧ isReloadEvt e = false ∧
      isResultNotifyEvt e = false := by
    intro e he
    rw [hrem e he]
    exact ⟨rfl, rfl, rfl⟩
  have hstash_cls : ∀ e ∈ stashE, isReloadEvt e = false ∧
      isResultNotifyEvt e = false := by
    intro e he
    have h := stashSeg_class (hstash e he)
    exact ⟨h.2.2.2.1, h.2.2.2.2⟩
  refine ⟨?_, ?_, ?_⟩
  · have hA : ∀ e ∈ (remE ++ stashE), isReloadEvt e = false := by
      intro e he
      simp only [List.mem_append] at he
      rcases he with he | he
      · exact (hrem_cls e he).2.1
      · exact (hstash_cls e he).1
    have hB : ∀ e ∈ (relE ++ [fin]), isStashPopEvt e = false := by
      intro e he
      simp only [List.mem_append, List.mem_cons, List.not_mem_nil, or_false] at he
      rcases he with he | rfl
      · exact (hrel e he).1
      · exact hfin.1
    have h := allBefore_append_split (remE ++ stashE) (relE ++ [fin]) hA hB
    simpa [List.append_assoc] using h
  · have hA : ∀ e ∈ ((remE ++ stashE) ++ relE), isResultNotifyEvt e = false := by
      intro e he
      simp only [List.mem_append] at he
      rcases he with (he | he) | he
      · exact (hrem_cls e he).2.2
      · exact (hstash_cls e he).2
      · exact (hrel e he).2.1
    have hB : ∀ e ∈ ([fin] : List Event), isStashPopEvt e = false := by
      intro e he
      simp only [List.mem_cons, List.not_mem_nil, or_false] at he
      rw [he]
      exact hfin.1
    have h := allBefore_append_split ((remE ++ stashE) ++ relE) [fin] hA hB
    simpa [List.append_assoc] using h
  · have hA : ∀ e ∈ ((remE ++ stashE) ++ relE), isResultNotifyEvt e = false := by
      intro e he
      simp only [List.mem_append] at he
      rcases he with (he | he) | he
      · exact (hrem_cls e he).2.2
      · exact (hstash_cls e he).2
      · exact (hrel e he).2.1
    have hB : ∀ e ∈ ([fin] : List Event), isReloadEvt e = false := by
      intro e he
      simp only [List.mem_cons, List.not_mem_nil, or_false] at he
      rw [he]
      exact hfin.2
    have h := allBefore_append_split ((remE ++ stashE) ++ relE) [fin] hA hB
    simpa [List.append_assoc] using h

/-- C3 counterexample: in a concrete sync both a detach and a stash-creation
command occur, and the detach precedes the stash — so the claimed order
"save, then stash, then detach, then invoke" does not hold on the code. -/
theorem sync_detach_precedes_stash :
    (syncClicked initState syncEnvStash).2.any isDetachEvt = true ∧
    (syncClicked initState syncEnvStash).2.any isStashSaveEvt = true ∧
    allBefore isStashSaveEvt isDetachEvt (syncClicked initState syncEnvStash).2 = false := by
  decide

/-- C3 (amended): every sync trace orders its steps save-dirty-assets, then
detach of the affected resources, then the stash step, then the dispatch of
the mutating pull command (each class of events entirely before the next,
whenever both occur); and every completion trace runs the unstash before the
reload of the pending set and the reload before the result notification. -/
theorem sync_and_completion_step_order (st : MenuState) (env : SyncEnv)
    (cst : MenuState) (op : OpName) (resultOk : Bool) (cenv : CompleteEnv) :
    (allBefore isSaveEvt isDetachEvt (syncClicked st env).2 = true ∧
     allBefore isSaveEvt isStashSaveEvt (syncClicked st env).2 = true ∧
     allBefore isSaveEvt isExecuteEvt (syncClicked st env).2 = true ∧
     allBefore isDetachEvt isStashSaveEvt (syncClicked st env).2 = true ∧
     allBefore isDetachEvt isExecuteEvt (syncClicked st env).2 = true ∧
     allBefore isStashSaveEvt isExecuteEvt (syncClicked st env).2 = true) ∧
    (allBefore isStashPopEvt isReloadEvt
        (onSourceControlOperationComplete cst op resultOk cenv).2 = true ∧
     allBefore isStashPopEvt isResultNotifyEvt
        (onSourceControlOperationComplete cst op resultOk cenv).2 = true ∧
     allBefore isReloadEvt isResultNotifyEvt
        (onSourceControlOperationComplete cst op resultOk cenv).2 = true) := by
  constructor
  · by_cases hbusy : st.operationInProgressNotification = true
    · simp only [syncClicked, hbusy, if_true]
      decide
    · by_cases hsave : env.saveOk = true
      · by_cases hstash :
          (stashAwayAnyModifications st.bStashMadeBeforeSync env.stash).1 = true
        · by_cases hexec : env.executeOk = true
          · have H := sync_order_helper (diffParams env.branchName)
              (packagesToUnlinkEv env.toAbsolute env.tryConvert
                (changedFiles env.diffLines env.statusLines)).2
              (unlinkPackages env.findPackage
                (packagesToUnlinkEv env.toAbsolute env.tryConvert
                  (changedFiles env.diffLines env.statusLines)).1).2
              (stashAwayAnyModifications st.bStashMadeBeforeSync env.stash).2.2
              [Event.execute OpName.Sync true, Event.displayInProgress]
              (conv_events_logNote _ _ _) (unlinkPackages_events _ _)
              (stash_events_shape _ _)
              (by
                intro e he
                simp only [List.mem_cons, List.not_mem_nil, or_false] at he
                rcases he with rfl | rfl <;> exact ⟨rfl, rfl, rfl⟩)
            simpa [syncClicked, hbusy, hsave, hstash, hexec] using H
          · have H := sync_order_helper (diffParams env.branchName)
              (packagesToUnlinkEv env.toAbsolute env.tryConvert
                (changedFiles env.diffLines env.statusLines)).2
              (unlinkPackages env.findPackage
                (packagesToUnlinkEv env.toAbsolute env.tryConvert
                  (changedFiles env.diffLines env.statusLines)).1).2
              (stashAwayAnyModifications st.bStashMadeBeforeSync env.stash).2.2
              ([Event.execute OpName.Sync false, Event.notifyFailure OpName.Sync] ++
                (reloadPackages env.longPackageNameToFilename env.fileExists
                  (unlinkPackages env.findPackage
                    (packagesToUnlinkEv env.toAbsolute env.tryConvert
                      (changedFiles env.diffLines env.statusLines)).1).1).2)
              (conv_events_logNote _ _ _) (unlinkPackages_events _ _)
              (stash_events_shape _ _)
              (by
                intro e he
                simp only [List.mem_append, List.mem_cons, List.not_mem_nil,
                  or_false] at he
                rcases he with (rfl | rfl) | he
                · exact ⟨rfl, rfl, rfl⟩
                · exact ⟨rfl, rfl, rfl⟩
                · have h := reload_events_class _ _ _ e he
                  exact ⟨h.1, h.2.1, h.2.2.1⟩)
            simpa [syncClicked, hbusy, hsave, hstash, hexec] using H
        · have H := sync_order_helper (diffParams env.branchName)
            (packagesToUnlinkEv env.toAbsolute env.tryConvert
              (changedFiles env.diffLines env.statusLines)).2
            (unlinkPackages env.findPackage
              (packagesToUnlinkEv env.toAbsolute env.tryConvert
                (changedFiles env.diffLines env.statusLines)).1).2
            (stashAwayAnyModifications st.bStashMadeBeforeSync env.stash).2.2
            [Event.warn "Stash away all modifications before attempting to Sync!"]
            (conv_events_logNote _ _ _) (unlinkPackages_events _ _)
            (stash_events_shape _ _)
            (by
              intro e he
              simp only [List.mem_cons, List.not_mem_nil, or_false] at he
              rw [he]
              exact ⟨rfl, rfl, rfl⟩)
          simpa [syncClicked, hbusy, hsave, hstash] using H
      · simp only [syncClicked, hbusy, hsave]
        simp only [Bool.false_eq_true, if_false]
        have hns : ∀ e ∈ [Event.warn "Save All Assets before attempting to Sync!"],
            isSaveEvt e = false := by decide
        refine ⟨?_, ?_, ?_, ?_, ?_, ?_⟩ <;>
          first
            | exact allBefore_cons_skip rfl (allBefore_of_no_p hns)
            | exact allBefore_of_no_p (by decide)
  · cases op with
    | Sync =>
      cases resultOk with
      | true =>
        have H := complete_order_helper (removeInProgressNotification cst).2
          (reApplyStashedModifications
            (removeInProgressNotification cst).1.bStashMadeBeforeSync
            cenv.unstashOk).2
          (reloadPackages cenv.longPackageNameToFilename cenv.fileExists
            (removeInProgressNotification cst).1.packagesToReload).2
          (Event.notifySuccess OpName.Sync)
          (removeNotif_events cst) (reapply_events_shape _ _)
          (fun e he => ⟨(reload_events_class _ _ _ e he).2.2.2.1,
            (reload_events_class _ _ _ e he).2.2.2.2,
            (reload_events_class _ _ _ e he).2.2.1⟩)
          ⟨rfl, rfl⟩
        simpa [onSourceControlOperationComplete] using H
      | false =>
        have H := complete_order_helper (removeInProgressNotification cst).2
          (reApplyStashedModifications
            (removeInProgressNotification cst).1.bStashMadeBeforeSync
            cenv.unstashOk).2
          (reloadPackages cenv.longPackageNameToFilename cenv.fileExists
            (removeInProgressNotification cst).1.packagesToReload).2
          (Event.notifyFailure OpName.Sync)
          (removeNotif_events cst) (reapply_events_shape _ _)
          (fun e he => ⟨(reload_events_class _ _ _ e he).2.2.2.1,
            (reload_events_class _ _ _ e he).2.2.2.2,
            (reload_events_class _ _ _ e he).2.2.1⟩)
          ⟨rfl, rfl⟩
        simpa [onSourceControlOperationComplete] using H
    | Revert =>
      cases resultOk with
      | true =>
        have H := complete_order_helper (removeInProgressNotification cst).2
          (reApplyStashedModifications
            (removeInProgressNotification cst).1.bStashMadeBeforeSync
            cenv.unstashOk).2
          (reloadPackages cenv.longPackageNameToFilename cenv.fileExists
            (removeInProgressNotification cst).1.packagesToReload).2
          (Event.notifySuccess OpName.Revert)
          (removeNotif_events cst) (reapply_events_shape _ _)
          (fun e he => ⟨(reload_events_class _ _ _ e he).2.2.2.1,
            (reload_events_class _ _ _ e he).2.2.2.2,
            (reload_events_class _ _ _ e he).2.2.1⟩)
          ⟨rfl, rfl⟩
        simpa [onSourceControlOperationComplete] using H
      | false =>
        have H := complete_order_helper (removeInProgressNotification cst).2
          (reApplyStashedModifications
            (removeInProgressNotification cst).1.bStashMadeBeforeSync
            cenv.unstashOk).2
          (reloadPackages cenv.longPackageNameToFilename cenv.fileExists
            (removeInProgressNotification cst).1.packagesToReload).2
          (Event.notifyFailure OpName.Revert)
          (removeNotif_events cst) (reapply_events_shape _ _)
          (fun e he => ⟨(reload_events_class _ _ _ e he).2.2.2.1,
            (reload_events_class _ _ _ e he).2.2.2.2,
            (reload_events_class _ _ _ e he).2.2.1⟩)
          ⟨rfl, rfl⟩
        simpa [onSourceControlOperationComplete] using H
    | Push =>
      cases resultOk with
      | true =>
        have hno : ∀ e ∈ ((removeInProgressNotification cst).2 ++
            [Event.notifySuccess OpName.Push]),
            isStashPopEvt e = false ∧ isReloadEvt e = false := by
          intro e he
          simp only [List.mem_append, List.mem_cons, List.not_mem_nil,
            or_false] at he
          rcases he with he | rfl
          · rw [removeNotif_events cst e he]
            exact ⟨rfl, rfl⟩
          · exact ⟨rfl, rfl⟩
        refine ⟨?_, ?_, ?_⟩ <;>
          simp only [onSourceControlOperationComplete] <;>
          simp only [if_true] <;>
          first
            | exact allBefore_of_no_p (fun e he => (hno e he).1)
            | exact allBefore_of_no_p (fun e he => (hno e he).2)
      | false =>
        have hno : ∀ e ∈ ((removeInProgressNotification cst).2 ++
            [Event.notifyFailure OpName.Push]),
            isStashPopEvt e = false ∧ isReloadEvt e = false := by
          intro e he
          simp only [List.mem_append, List.mem_cons, List.not_mem_nil,
            or_false] at he
          rcases he with he | rfl
          · rw [removeNotif_events cst e he]
            exact ⟨rfl, rfl⟩
          · exact ⟨rfl, rfl⟩
        refine ⟨?_, ?_, ?_⟩ <;>
          simp only [onSourceControlOperationComplete] <;>
          first
            | exact allBefore_of_no_p (fun e he => (hno e he).1)
            | exact allBefore_of_no_p (fun e he => (hno e he).2)
    | UpdateStatus =>
      cases resultOk with
      | true =>
        have hno : ∀ e ∈ ((removeInProgressNotification cst).2 ++
            [Event.notifySuccess OpName.UpdateStatus]),
            isStashPopEvt e = false ∧ isReloadEvt e = false := by
          intro e he
          simp only [List.mem_append, List.mem_cons, List.not_mem_nil,
            or_false] at he
          rcases he with he | rfl
          · rw [removeNotif_events cst e he]
            exact ⟨rfl, rfl⟩
          · exact ⟨rfl, rfl⟩
        refine ⟨?_, ?_, ?_⟩ <;>
          simp only [onSourceControlOperationComplete] <;>
          first
            | exact allBefore_of_no_p (fun e he => (hno e he).1)
            | exact allBefore_of_no_p (fun e he => (hno e he).2)
      | false =>
        have hno : ∀ e ∈ ((removeInProgressNotification cst).2 ++
            [Event.notifyFailure OpName.UpdateStatus]),
            isStashPopEvt e = false ∧ isReloadEvt e = false := by
          intro e he
          simp only [List.mem_append, List.mem_cons, List.not_mem_nil,
            or_false] at he
          rcases he with he | rfl
          · rw [removeNotif_events cst e he]
            exact ⟨rfl, rfl⟩
          · exact ⟨rfl, rfl⟩
        refine ⟨?_, ?_, ?_⟩ <;>
          simp only [onSourceControlOperationComplete] <;>
          first
            | exact allBefore_of_no_p (fun e he => (hno e he).1)
            | exact allBefore_of_no_p (fun e he => (hno e he).2)
